import Mathlib

/-!
Shallow embedding of the inventory / ledger / purchase-coordination core of
the `discordresellbot` repository (`src/database.py`, `src/bot.py`,
`src/config.py`).

Modelling conventions:
* A product's key file is modelled by its parsed key list: the code always
  reads a file as the list of stripped non-blank lines and writes it back as
  those lines joined by newlines, and every key that enters a file comes from
  `addkeys` (split on newline, stripped, blanks dropped), so each stored key
  is one non-blank line and the list view is exact.
* SQLite `REAL` money columns are modelled as exact rationals (`Rat`).
* `CURRENT_TIMESTAMP` is modelled by an explicit `now : Nat` argument.
* A relational commit that may raise is modelled by an explicit `ok : Bool`
  oracle; the `except` branch of the Python code corresponds to `ok = false`
  (the connection is closed without commit, so the relational state is
  unchanged), mirroring the try/except structure of each method.
* Each `async` method of `Database` performs its file read-modify-write with
  no `await` suspension point inside, so under the single-threaded asyncio
  event loop each call is one atomic step; concurrent schedules are therefore
  modelled as sequential interleavings of these atomic operations.
-/

namespace ResellBot

/-- `KEYS_CONFIG` from `config.py`: the configured product types (the domain
of the product-type → key-file map; the file contents live in `State.pool`). -/
def KEYS_CONFIG : List String :=
  ["vallifetime", "val1month", "val1week", "wooflifetime", "woof1month", "woof1week"]

/-- A `PRODUCTS` catalog entry from `config.py` (name, price, duration). -/
structure Product where
  name : String
  price : Rat
  duration : Nat
  deriving DecidableEq, Repr

/-- `PRODUCTS` from `config.py`. -/
def PRODUCTS : List (String × Product) :=
  [ ("vallifetime", ⟨"Valorant LifeTime License", 495, 365⟩)
  , ("val1month", ⟨"Valorant 1 Month License", 285, 30⟩)
  , ("val1week", ⟨"Valorant 1 Week License", 100, 7⟩)
  , ("wooflifetime", ⟨"Spoofer LifeTime License", 495, 365⟩)
  , ("woof1month", ⟨"Spoofer 1 Month License", 360, 30⟩)
  , ("woof1week", ⟨"Spoofer 1 Week License", 100, 7⟩) ]

/-- A row of the `users` table. -/
structure UserRow where
  user_id : Int
  username : String
  balance : Rat
  total_spent : Rat
  total_earned : Rat
  is_reseller : Bool
  commission_rate : Rat
  created_at : Nat
  last_activity : Nat
  deriving DecidableEq, Repr

/-- A row of the `licenses` table. -/
structure LicenseRow where
  license_id : String
  user_id : Int
  product_type : String
  product_name : Option String
  hwid : Option String
  hwid_limit : Int
  created_at : Nat
  expires_at : Nat
  created_by : Int
  is_active : Bool
  deriving DecidableEq, Repr

/-- A row of the `transactions` table (`id` is the AUTOINCREMENT key). -/
structure TxnRow where
  id : Nat
  user_id : Int
  amount : Rat
  transaction_type : String
  description : Option String
  created_at : Nat
  deriving DecidableEq, Repr

/-- A row of the `admin_logs` table. -/
structure AdminLogRow where
  admin_id : Int
  action : String
  target_user : Option Int
  target_license : Option String
  details : Option String
  created_at : Nat
  deriving DecidableEq, Repr

/-- Combined persistent state: the per-product key files (`pool`) and the
relational tables touched by the claims. -/
structure State where
  pool : String → List String
  users : List UserRow
  licenses : List LicenseRow
  transactions : List TxnRow
  adminLogs : List AdminLogRow
  nextTxId : Nat

/-- `Database.get_available_key` (`database.py` lines 20-56): if the product
type is configured and its file has a key, remove and return the first key;
otherwise return `None` and leave the file untouched. -/
def get_available_key (st : State) (product_type : String) : Option String × State :=
  if product_type ∈ KEYS_CONFIG then
    match st.pool product_type with
    | [] => (none, st)
    | selected_key :: remaining_keys =>
        (some selected_key,
          { st with pool := fun p => if p = product_type then remaining_keys else st.pool p })
  else (none, st)

/-- `Database.return_key` (`database.py` lines 58-89): a key already present
is a success no-op; otherwise the key is inserted at the head of the file. -/
def return_key (st : State) (product_type : String) (key : String) : Bool × State :=
  if product_type ∈ KEYS_CONFIG then
    if key ∈ st.pool product_type then (true, st)
    else
      (true,
        { st with pool := fun p => if p = product_type then key :: st.pool p else st.pool p })
  else (false, st)

/-- `Database.get_key_count` (`database.py` lines 91-109). -/
def get_key_count (st : State) (product_type : String) : Nat :=
  if product_type ∈ KEYS_CONFIG then (st.pool product_type).length else 0

/-- `Database.add_key` (`database.py` lines 111-138): reject a key already
present anywhere in the file, otherwise append it at the tail. -/
def add_key (st : State) (product_type : String) (key : String) : Bool × State :=
  if product_type ∈ KEYS_CONFIG then
    if key ∈ st.pool product_type then (false, st)
    else
      (true,
        { st with pool := fun p => if p = product_type then st.pool p ++ [key] else st.pool p })
  else (false, st)

/-- `Database.create_user` (`database.py` lines 270-282): `INSERT OR IGNORE`,
creating a fresh row with the schema defaults when the id is absent. -/
def create_user (st : State) (user_id : Int) (username : String) (now : Nat) : Bool × State :=
  if st.users.any (fun u => u.user_id == user_id) then (true, st)
  else
    (true, { st with users := st.users ++
      [{ user_id := user_id, username := username, balance := 0, total_spent := 0,
         total_earned := 0, is_reseller := false, commission_rate := 0,
         created_at := now, last_activity := now }] })

/-- `Database.get_user` (`database.py` lines 284-297). -/
def get_user (st : State) (user_id : Int) : Option UserRow :=
  st.users.find? (fun u => u.user_id == user_id)

/-- `Database.update_user_activity` (`database.py` lines 299-311). -/
def update_user_activity (st : State) (user_id : Int) (now : Nat) : Bool × State :=
  let users' := st.users.map
    (fun u => if u.user_id == user_id then { u with last_activity := now } else u)
  (true, { st with users := users' })

/-- `Database.update_balance` (`database.py` lines 313-345): one SQLite
transaction updating balance, appending a transaction row, and bumping
total_earned (positive amount) or total_spent (otherwise); `ok = false` is
the except branch, where nothing was committed. -/
def update_balance (st : State) (ok : Bool) (user_id : Int) (amount : Rat)
    (transaction_type : String) (description : Option String) (now : Nat) : Bool × State :=
  if ok then
    let users1 := st.users.map
      (fun u => if u.user_id == user_id then { u with balance := u.balance + amount } else u)
    let tx : TxnRow :=
      { id := st.nextTxId, user_id := user_id, amount := amount,
        transaction_type := transaction_type, description := description, created_at := now }
    let users2 :=
      if 0 < amount then
        users1.map (fun u =>
          if u.user_id == user_id then { u with total_earned := u.total_earned + amount } else u)
      else
        users1.map (fun u =>
          if u.user_id == user_id then { u with total_spent := u.total_spent + |amount| } else u)
    (true,
      { st with
          users := users2
          transactions := st.transactions ++ [tx]
          nextTxId := st.nextTxId + 1 })
  else (false, st)

/-- `Database.create_license` (`database.py` lines 393-423): take a key from
the file; on success of the `INSERT` commit the new row; if the insert raises
(oracle `ok = false`, or primary-key conflict with an existing license id),
the except branch returns the taken key to the file and yields `None`. -/
def create_license (st : State) (ok : Bool) (user_id : Int) (product_type : String)
    (duration_days : Nat) (created_by : Int) (hwid_limit : Int)
    (product_name : Option String) (now : Nat) : Option String × State :=
  match get_available_key st product_type with
  | (none, st1) => (none, st1)
  | (some license_id, st1) =>
      if ok && !(st1.licenses.any (fun l => l.license_id == license_id)) then
        (some license_id,
          { st1 with licenses := st1.licenses ++
            [{ license_id := license_id, user_id := user_id, product_type := product_type,
               product_name := product_name, hwid := none, hwid_limit := hwid_limit,
               created_at := now, expires_at := now + duration_days,
               created_by := created_by, is_active := true }] })
      else
        (none, (return_key st1 product_type license_id).2)

/-- `Database.get_license_by_id` (`database.py` lines 425-438). -/
def get_license_by_id (st : State) (license_id : String) : Option LicenseRow :=
  st.licenses.find? (fun l => l.license_id == license_id)

/-- `Database.delete_license` (`database.py` lines 463-491): look up the row
by (license id, user id); if absent report failure; otherwise delete it and
then return the key (the license id itself) to the product's key file. -/
def delete_license (st : State) (license_id : String) (user_id : Int) : Bool × State :=
  match st.licenses.find? (fun l => l.license_id == license_id && l.user_id == user_id) with
  | none => (false, st)
  | some license_data =>
      let remaining :=
        st.licenses.filter (fun l => !(l.license_id == license_id && l.user_id == user_id))
      let st1 := { st with licenses := remaining }
      (true, (return_key st1 license_data.product_type license_id).2)

/-- `Database.get_user_transactions` (`database.py` lines 550-563):
`ORDER BY created_at DESC LIMIT ?` over the user's transactions.  The sort is
realised by a stable descending insertion on `created_at` (ties keep table
order, as the claims only exercise tie-free histories). -/
def insertTxDesc (t : TxnRow) : List TxnRow → List TxnRow
  | [] => [t]
  | u :: us => if u.created_at < t.created_at then t :: u :: us else u :: insertTxDesc t us

/-- Descending-by-`created_at` sort used to model `ORDER BY created_at DESC`. -/
def orderByCreatedAtDesc : List TxnRow → List TxnRow
  | [] => []
  | t :: ts => insertTxDesc t (orderByCreatedAtDesc ts)

/-- `Database.get_user_transactions` (`database.py` lines 550-563). -/
def get_user_transactions (st : State) (user_id : Int) (limit : Nat) : List TxnRow :=
  (orderByCreatedAtDesc (st.transactions.filter (fun t => t.user_id == user_id))).take limit

/-- `Database.log_admin_action` (`database.py` lines 569-584). -/
def log_admin_action (st : State) (admin_id : Int) (action : String)
    (target_user : Option Int) (target_license : Option String)
    (details : Option String) (now : Nat) : Bool × State :=
  (true, { st with adminLogs := st.adminLogs ++
    [{ admin_id := admin_id, action := action, target_user := target_user,
       target_license := target_license, details := details, created_at := now }] })

/-- `Database.cleanup_expired_licenses` (`database.py` lines 654-671): count
the rows with `expires_at <= now AND is_active`, then set `is_active = FALSE`
on every row with `expires_at <= now`, and return the count. -/
def cleanup_expired_licenses (st : State) (now : Nat) : Nat × State :=
  let count := (st.licenses.filter (fun l => l.expires_at ≤ now && l.is_active)).length
  let licenses' := st.licenses.map
    (fun l => if l.expires_at ≤ now then { l with is_active := false } else l)
  (count, { st with licenses := licenses' })

/-- `ensure_user_exists` (`bot.py` lines 73-76): `create_user` then
`update_user_activity`. -/
def ensure_user_exists (st : State) (user_id : Int) (username : String) (now : Nat) : State :=
  (update_user_activity (create_user st user_id username now).2 user_id now).2

/-- Terminal outcomes of one run of the `/purchase` flow in `bot.py`. -/
inductive PurchaseResult where
  | unauthorized
  | invalidProduct
  | outOfStock
  | insufficientBalance
  | licenseCreationFailed
  | paymentFailed
  | completed (license_id : String)
  deriving DecidableEq, Repr

/-- The `/purchase` command followed by the Purchase button click
(`bot.py` lines 296-457), as one sequential run: ensure the buyer row,
validate reseller status / product / stock / balance, then ensure the target
row, create the license, debit the buyer, and on debit failure return the key
(the code's only compensation); on success append the admin log. -/
def purchase_flow (st : State) (buyer_id : Int) (buyer_name : String)
    (product_type : String) (target_id : Int) (target_name : String)
    (insert_ok debit_ok : Bool) (now : Nat) : PurchaseResult × State :=
  let st0 := ensure_user_exists st buyer_id buyer_name now
  match get_user st0 buyer_id with
  | none => (.unauthorized, st0)
  | some user_data =>
    if ¬ user_data.is_reseller then (.unauthorized, st0)
    else
      match (PRODUCTS.find? (fun p => p.1 == product_type)).map Prod.snd with
      | none => (.invalidProduct, st0)
      | some product =>
        let reseller_price := product.price * (1 - user_data.commission_rate)
        if get_key_count st0 product_type ≤ 0 then (.outOfStock, st0)
        else if user_data.balance < reseller_price then (.insufficientBalance, st0)
        else
          let st1 := ensure_user_exists st0 target_id target_name now
          match create_license st1 insert_ok target_id product_type product.duration
            buyer_id 1 (some product.name) now with
          | (none, st2) => (.licenseCreationFailed, st2)
          | (some license_id, st2) =>
            match update_balance st2 debit_ok buyer_id (-reseller_price) "purchase"
              (some "Reseller purchase") now with
            | (false, st3) => (.paymentFailed, (return_key st3 product_type license_id).2)
            | (true, st3) =>
              (.completed license_id,
                (log_admin_action st3 buyer_id "reseller_purchase" (some target_id)
                  (some license_id) (some "purchase log") now).2)

/-- `DeleteConfirmView.confirm_delete` (`bot.py` lines 1173-1222): call
`delete_license` and, on success, append the admin log; the flow performs no
separate `return_key` of its own. -/
def confirm_delete (st : State) (admin_id : Int) (license_id : String) (user_id : Int)
    (reason : String) (now : Nat) : Bool × State :=
  match delete_license st license_id user_id with
  | (false, st1) => (false, st1)
  | (true, st1) =>
      (true, (log_admin_action st1 admin_id "license_delete" (some user_id)
        (some license_id) (some reason) now).2)

/-- Sequential interleaving of `n` atomic `get_available_key` calls for one
product (each call has no suspension point between its file read and write,
so any asyncio schedule of `n` concurrent calls is one such sequence). -/
def run_takes : Nat → State → String → List (Option String) × State
  | 0, st, _ => ([], st)
  | n + 1, st, product_type =>
      let (r, st1) := get_available_key st product_type
      let (rs, st2) := run_takes n st1 product_type
      (r :: rs, st2)

/-! ## Concrete fixture states (used by witnesses and counterexamples) -/

/-- A fixture state: keys `l` stocked for product `val1week`, one reseller
(user 1, balance 500, commission rate 0), and otherwise empty tables. -/
def fixState (l : List String) : State :=
  { pool := fun p => if p = "val1week" then l else []
  , users := [{ user_id := 1, username := "r", balance := 500, total_spent := 0,
                total_earned := 0, is_reseller := true, commission_rate := 0,
                created_at := 0, last_activity := 0 }]
  , licenses := [], transactions := [], adminLogs := [], nextTxId := 1 }

/-- The reseller row of `fixState`. -/
def fixUser : UserRow :=
  { user_id := 1, username := "r", balance := 500, total_spent := 0,
    total_earned := 0, is_reseller := true, commission_rate := 0,
    created_at := 0, last_activity := 0 }

/-- A fixture state holding one active license `K1` for user 5 of product
`val1week`, with an empty key pool for that product. -/
def fixLicState : State :=
  { pool := fun _ => []
  , users := []
  , licenses := [{ license_id := "K1", user_id := 5, product_type := "val1week",
                   product_name := some "Valorant 1 Week License", hwid := none,
                   hwid_limit := 1, created_at := 0, expires_at := 7,
                   created_by := 1, is_active := true }]
  , transactions := [], adminLogs := [], nextTxId := 1 }

/-- A reseller row with balance 50, below every product's price. -/
def fixPoorUser : UserRow :=
  { user_id := 1, username := "r", balance := 50, total_spent := 0,
    total_earned := 0, is_reseller := true, commission_rate := 0,
    created_at := 0, last_activity := 0 }

/-- A fixture state: one `val1week` key stocked and the poor reseller. -/
def fixPoorState : State :=
  { pool := fun p => if p = "val1week" then ["K1"] else []
  , users := [fixPoorUser]
  , licenses := [], transactions := [], adminLogs := [], nextTxId := 1 }

/-! ## Theorems -/

/-- C9: `take` on a non-empty pool removes and returns the head of the queue
(FIFO) and decreases the count by one; `take` on an empty pool signals
no-stock (returns `none`) with no side effects, and `create_license` then
creates no license either. -/
theorem C9_take_fifo_and_empty_no_effect (st : State) (pt : String)
    (h : pt ∈ KEYS_CONFIG) :
    (st.pool pt = [] →
      get_available_key st pt = (none, st) ∧
      ∀ ok uid dur cb hl pn now,
        create_license st ok uid pt dur cb hl pn now = (none, st)) ∧
    (∀ k rest, st.pool pt = k :: rest →
      (get_available_key st pt).1 = some k ∧
      (get_available_key st pt).2.pool pt = rest ∧
      (get_available_key st pt).2.licenses = st.licenses ∧
      get_key_count (get_available_key st pt).2 pt + 1 = get_key_count st pt) := by
  constructor
  · intro hemp
    refine ⟨by simp [get_available_key, h, hemp], ?_⟩
    intro ok uid dur cb hl pn now
    simp [create_license, get_available_key, h, hemp]
  · intro k rest hcons
    simp [get_available_key, h, hcons, get_key_count]

/-- C9 witness: concrete instantiation on a two-key `val1week` pool. -/
theorem C9_witness :
    ("val1week" ∈ KEYS_CONFIG) ∧
    (((fixState ["K1", "K2"]).pool "val1week" = [] →
      get_available_key (fixState ["K1", "K2"]) "val1week" = (none, fixState ["K1", "K2"]) ∧
      ∀ ok uid dur cb hl pn now,
        create_license (fixState ["K1", "K2"]) ok uid "val1week" dur cb hl pn now =
          (none, fixState ["K1", "K2"])) ∧
    (∀ k rest, (fixState ["K1", "K2"]).pool "val1week" = k :: rest →
      (get_available_key (fixState ["K1", "K2"]) "val1week").1 = some k ∧
      (get_available_key (fixState ["K1", "K2"]) "val1week").2.pool "val1week" = rest ∧
      (get_available_key (fixState ["K1", "K2"]) "val1week").2.licenses =
        (fixState ["K1", "K2"]).licenses ∧
      get_key_count (get_available_key (fixState ["K1", "K2"]) "val1week").2 "val1week" + 1 =
        get_key_count (fixState ["K1", "K2"]) "val1week")) :=
  ⟨by decide, C9_take_fifo_and_empty_no_effect (fixState ["K1", "K2"]) "val1week" (by decide)⟩

/-- C4: on a duplicate-free non-empty pool, a `take` followed by a
`returnKey` of the same key restores the count and re-inserts the key at the
head, so the same key is the next one returned by `take`; and returning a key
already present in the pool is a success no-op leaving the pool unchanged. -/
theorem C4_take_return_roundtrip (st : State) (pt k : String) (rest : List String)
    (h : pt ∈ KEYS_CONFIG ∧ st.pool pt = k :: rest ∧ k ∉ rest) :
    (get_available_key st pt).1 = some k ∧
    (return_key (get_available_key st pt).2 pt k).1 = true ∧
    (return_key (get_available_key st pt).2 pt k).2.pool pt = k :: rest ∧
    get_key_count (return_key (get_available_key st pt).2 pt k).2 pt = get_key_count st pt ∧
    (get_available_key (return_key (get_available_key st pt).2 pt k).2 pt).1 = some k ∧
    (∀ k', k' ∈ st.pool pt → return_key st pt k' = (true, st)) := by
  obtain ⟨hpt, hcons, hnot⟩ := h
  refine ⟨?_, ?_, ?_, ?_, ?_, ?_⟩
  · simp [get_available_key, hpt, hcons]
  · simp [get_available_key, return_key, hpt, hcons, hnot]
  · simp [get_available_key, return_key, hpt, hcons, hnot]
  · simp [get_available_key, return_key, get_key_count, hpt, hcons, hnot]
  · simp [get_available_key, return_key, hpt, hcons, hnot]
  · intro k' hk'
    simp [return_key, hpt, hk']

/-- C4 witness: concrete instantiation on the pool `["K1", "K2"]`. -/
theorem C4_witness :
    ("val1week" ∈ KEYS_CONFIG ∧ (fixState ["K1", "K2"]).pool "val1week" = "K1" :: ["K2"] ∧
      "K1" ∉ ["K2"]) ∧
    ((get_available_key (fixState ["K1", "K2"]) "val1week").1 = some "K1" ∧
     (return_key (get_available_key (fixState ["K1", "K2"]) "val1week").2 "val1week" "K1").1 = true ∧
     (return_key (get_available_key (fixState ["K1", "K2"]) "val1week").2 "val1week"
        "K1").2.pool "val1week" = "K1" :: ["K2"] ∧
     get_key_count (return_key (get_available_key (fixState ["K1", "K2"]) "val1week").2 "val1week"
        "K1").2 "val1week" = get_key_count (fixState ["K1", "K2"]) "val1week" ∧
     (get_available_key (return_key (get_available_key (fixState ["K1", "K2"]) "val1week").2
        "val1week" "K1").2 "val1week").1 = some "K1" ∧
     (∀ k', k' ∈ (fixState ["K1", "K2"]).pool "val1week" →
        return_key (fixState ["K1", "K2"]) "val1week" k' = (true, fixState ["K1", "K2"]))) :=
  ⟨by decide, C4_take_return_roundtrip (fixState ["K1", "K2"]) "val1week" "K1" ["K2"] (by decide)⟩

/-- C7: on a duplicate-free pool, `take`, `returnKey` and `stock` all
preserve duplicate-freeness; `stock` rejects a key already present anywhere
in the queue and leaves the pool unchanged, and otherwise appends the key to
the tail; `returnKey` never inserts a key that is already available. -/
theorem C7_nodup_invariant (st : State) (pt : String)
    (h : pt ∈ KEYS_CONFIG ∧ (st.pool pt).Nodup) :
    ((get_available_key st pt).2.pool pt).Nodup ∧
    (∀ k, ((return_key st pt k).2.pool pt).Nodup) ∧
    (∀ k, ((add_key st pt k).2.pool pt).Nodup) ∧
    (∀ k, k ∈ st.pool pt →
      add_key st pt k = (false, st) ∧ return_key st pt k = (true, st)) ∧
    (∀ k, k ∉ st.pool pt →
      (add_key st pt k).1 = true ∧ (add_key st pt k).2.pool pt = st.pool pt ++ [k]) := by
  obtain ⟨hpt, hnd⟩ := h
  refine ⟨?_, ?_, ?_, ?_, ?_⟩
  · match hcons : st.pool pt with
    | [] => simp [get_available_key, hpt, hcons]
    | a :: l =>
        have := hcons ▸ hnd
        simp [get_available_key, hpt, hcons]
        exact (List.nodup_cons.mp this).2
  · intro k
    by_cases hk : k ∈ st.pool pt
    · simp [return_key, hpt, hk, hnd]
    · simp [return_key, hpt, hk]
      exact hnd
  · intro k
    by_cases hk : k ∈ st.pool pt
    · simp [add_key, hpt, hk, hnd]
    · simp [add_key, hpt, hk]
      simp [List.nodup_append, hnd, hk]
  · intro k hk
    exact ⟨by simp [add_key, hpt, hk], by simp [return_key, hpt, hk]⟩
  · intro k hk
    exact ⟨by simp [add_key, hpt, hk], by simp [add_key, hpt, hk]⟩

/-- C7 witness: concrete instantiation on the duplicate-free pool
`["K1", "K2"]`. -/
theorem C7_witness :
    ("val1week" ∈ KEYS_CONFIG ∧ ((fixState ["K1", "K2"]).pool "val1week").Nodup) ∧
    (((get_available_key (fixState ["K1", "K2"]) "val1week").2.pool "val1week").Nodup ∧
     (∀ k, ((return_key (fixState ["K1", "K2"]) "val1week" k).2.pool "val1week").Nodup) ∧
     (∀ k, ((add_key (fixState ["K1", "K2"]) "val1week" k).2.pool "val1week").Nodup) ∧
     (∀ k, k ∈ (fixState ["K1", "K2"]).pool "val1week" →
        add_key (fixState ["K1", "K2"]) "val1week" k = (false, fixState ["K1", "K2"]) ∧
        return_key (fixState ["K1", "K2"]) "val1week" k = (true, fixState ["K1", "K2"])) ∧
     (∀ k, k ∉ (fixState ["K1", "K2"]).pool "val1week" →
        (add_key (fixState ["K1", "K2"]) "val1week" k).1 = true ∧
        (add_key (fixState ["K1", "K2"]) "val1week" k).2.pool "val1week" =
          (fixState ["K1", "K2"]).pool "val1week" ++ [k])) :=
  ⟨by decide, C7_nodup_invariant (fixState ["K1", "K2"]) "val1week" (by decide)⟩

/-- Helper: draining a pool of `l.length` keys by successive atomic `take`
calls yields exactly the keys of `l` in order and empties the pool; one more
call then returns `none`. -/
theorem run_takes_drain (pt : String) (hpt : pt ∈ KEYS_CONFIG) :
    ∀ (l : List String) (st : State), st.pool pt = l →
      (run_takes (l.length + 1) st pt).1 = l.map some ++ [none] ∧
      (run_takes (l.length + 1) st pt).2.pool pt = [] := by
  intro l
  induction l with
  | nil =>
      intro st hp
      simp [run_takes, get_available_key, hpt, hp]
  | cons k rest ih =>
      intro st hp
      have hstep : get_available_key st pt =
          (some k, { st with pool := fun p => if p = pt then rest else st.pool p }) := by
        simp [get_available_key, hpt, hp]
      have hrest : ({ st with pool := fun p => if p = pt then rest else st.pool p } :
          State).pool pt = rest := by simp
      obtain ⟨h1, h2⟩ := ih _ hrest
      simp only [run_takes] at h1 h2
      constructor
      · show (run_takes (rest.length + 1 + 1) st pt).1 = (k :: rest).map some ++ [none]
        simp only [run_takes, hstep, h1, List.map_cons, List.cons_append]
      · show (run_takes (rest.length + 1 + 1) st pt).2.pool pt = []
        simp only [run_takes, hstep, h2]

/-- C2: with each `take` an atomic step (its file read-modify-write contains
no suspension point, so the asyncio event loop serializes the calls and any
concurrent schedule is a sequential interleaving), `N + 1` take calls against
a product stocked with exactly `N` distinct keys return the `N` keys — all
succeeding, pairwise distinct — while the `(N+1)`-th call returns `none`
(no-stock), leaving the pool empty; in particular no two calls ever return
the same key. -/
theorem C2_concurrent_takes_distinct (st : State) (pt : String) (l : List String)
    (h : pt ∈ KEYS_CONFIG ∧ st.pool pt = l ∧ l.Nodup) :
    (run_takes (l.length + 1) st pt).1 = l.map some ++ [none] ∧
    ((run_takes (l.length + 1) st pt).1.filterMap id).Nodup ∧
    (run_takes (l.length + 1) st pt).1.count none = 1 ∧
    (run_takes (l.length + 1) st pt).2.pool pt = [] := by
  obtain ⟨hpt, hp, hnd⟩ := h
  obtain ⟨h1, h2⟩ := run_takes_drain pt hpt l st hp
  refine ⟨h1, ?_, ?_, h2⟩
  · rw [h1]
    have : (l.map some ++ [none]).filterMap id = l := by
      simp [List.filterMap_append]
    rw [this]
    exact hnd
  · rw [h1]
    have hz : (l.map some).count (none : Option String) = 0 := by
      simp [List.count_eq_zero]
    simp [List.count_append, hz]

/-- C2 witness: draining the concrete two-key pool with three take calls. -/
theorem C2_witness :
    ("val1week" ∈ KEYS_CONFIG ∧ (fixState ["K1", "K2"]).pool "val1week" = ["K1", "K2"] ∧
      (["K1", "K2"] : List String).Nodup) ∧
    ((run_takes 3 (fixState ["K1", "K2"]) "val1week").1 = [some "K1", some "K2", none] ∧
     ((run_takes 3 (fixState ["K1", "K2"]) "val1week").1.filterMap id).Nodup ∧
     (run_takes 3 (fixState ["K1", "K2"]) "val1week").1.count none = 1 ∧
     (run_takes 3 (fixState ["K1", "K2"]) "val1week").2.pool "val1week" = []) :=
  ⟨by decide, C2_concurrent_takes_distinct (fixState ["K1", "K2"]) "val1week" ["K1", "K2"]
    (by decide)⟩

/-- Helper: a map whose function is pointwise related to the identity yields
a `Forall₂` relation with the original list. -/
theorem forall2_map_rel {α : Type} (R : α → α → Prop) (f : α → α)
    (hR : ∀ a, R (f a) a) : ∀ l : List α, List.Forall₂ R (l.map f) l := by
  intro l
  induction l with
  | nil => exact List.Forall₂.nil
  | cons a l ih => exact List.Forall₂.cons (hR a) ih

/-- C8: the sweep returns the count of licenses with `is_active = true` and
`expires_at ≤ now`; row for row it keeps id, owner, product and expiry
unchanged and flips `is_active` to false exactly on the expired rows; a
second sweep at the same instant returns 0 and changes nothing; users,
transactions and the key pool are untouched. -/
theorem C8_sweep_idempotent (st : State) (now : Nat) :
    (cleanup_expired_licenses st now).1 =
      (st.licenses.filter (fun l => l.expires_at ≤ now && l.is_active)).length ∧
    List.Forall₂
      (fun b a => b.license_id = a.license_id ∧ b.user_id = a.user_id ∧
        b.product_type = a.product_type ∧ b.expires_at = a.expires_at ∧
        b.is_active = (a.is_active && !(decide (a.expires_at ≤ now))))
      (cleanup_expired_licenses st now).2.licenses st.licenses ∧
    cleanup_expired_licenses (cleanup_expired_licenses st now).2 now =
      (0, (cleanup_expired_licenses st now).2) ∧
    (cleanup_expired_licenses st now).2.users = st.users ∧
    (cleanup_expired_licenses st now).2.transactions = st.transactions ∧
    (cleanup_expired_licenses st now).2.pool = st.pool := by
  refine ⟨rfl, ?_, ?_, rfl, rfl, rfl⟩
  · apply forall2_map_rel
    intro a
    by_cases h : a.expires_at ≤ now <;> simp [h]
  · have hcount : ((st.licenses.map
          (fun l => if l.expires_at ≤ now then { l with is_active := false } else l)).filter
        (fun l => l.expires_at ≤ now && l.is_active)).length = 0 := by
      rw [List.length_eq_zero, List.filter_eq_nil_iff]
      intro a ha
      rcases List.mem_map.mp ha with ⟨b, hb, rfl⟩
      by_cases hbe : b.expires_at ≤ now <;> simp [hbe]
    have hmap : (st.licenses.map
          (fun l => if l.expires_at ≤ now then { l with is_active := false } else l)).map
        (fun l => if l.expires_at ≤ now then { l with is_active := false } else l) =
        st.licenses.map
          (fun l => if l.expires_at ≤ now then { l with is_active := false } else l) := by
      rw [List.map_map]
      apply List.map_congr_left
      intro a _
      by_cases hbe : a.expires_at ≤ now <;> simp [hbe]
    show cleanup_expired_licenses (cleanup_expired_licenses st now).2 now =
      (0, (cleanup_expired_licenses st now).2)
    simp only [cleanup_expired_licenses]
    rw [hcount, hmap]

/-- C10: `create_license` is atomic with respect to the key pool: either it
returns a license id, in which case exactly one key was consumed from the
product's pool and a license row with that id exists, or it returns `none`
and the pool count is unchanged (a key taken before an internal failure has
been returned to the pool). -/
theorem C10_create_license_atomic (st : State) (ok : Bool) (uid : Int) (pt : String)
    (dur : Nat) (cb hl : Int) (pn : Option String) (now : Nat)
    (h : pt ∈ KEYS_CONFIG ∧ (st.pool pt).Nodup) :
    (∀ lid, (create_license st ok uid pt dur cb hl pn now).1 = some lid →
      get_key_count (create_license st ok uid pt dur cb hl pn now).2 pt + 1 =
        get_key_count st pt ∧
      get_license_by_id (create_license st ok uid pt dur cb hl pn now).2 lid ≠ none) ∧
    ((create_license st ok uid pt dur cb hl pn now).1 = none →
      get_key_count (create_license st ok uid pt dur cb hl pn now).2 pt =
        get_key_count st pt) := by
  obtain ⟨hpt, hnd⟩ := h
  match hpool : st.pool pt with
  | [] =>
      have hstep : create_license st ok uid pt dur cb hl pn now = (none, st) := by
        simp [create_license, get_available_key, hpt, hpool]
      simp [hstep]
  | k :: rest =>
      have hknot : k ∉ rest := (List.nodup_cons.mp (hpool ▸ hnd)).1
      have hstep : get_available_key st pt =
          (some k, { st with pool := fun p => if p = pt then rest else st.pool p }) := by
        simp [get_available_key, hpt, hpool]
      by_cases hc : (st.licenses.any (fun l => l.license_id == k)) = false ∧ ok = true
      · obtain ⟨hany, hok⟩ := hc
        have hres : create_license st ok uid pt dur cb hl pn now =
            (some k,
              { st with
                  pool := fun p => if p = pt then rest else st.pool p
                  licenses := st.licenses ++
                    [{ license_id := k, user_id := uid, product_type := pt,
                       product_name := pn, hwid := none, hwid_limit := hl,
                       created_at := now, expires_at := now + dur,
                       created_by := cb, is_active := true }] }) := by
          simp [create_license, hstep, hany, hok]
        constructor
        · intro lid hlid
          rw [hres] at hlid
          obtain rfl : k = lid := by simpa using hlid
          constructor
          · simp [hres, get_key_count, hpt, hpool]
          · have hnone : st.licenses.find? (fun l => l.license_id == k) = none :=
              List.find?_eq_none.mpr (by
                intro x hx
                have := (List.any_eq_false.mp hany) x hx
                simpa using this)
            simp [hres, get_license_by_id, List.find?_append, hnone]
        · intro hnone
          rw [hres] at hnone
          simp at hnone
      · have hfail : (ok && !(st.licenses.any (fun l => l.license_id == k))) = false := by
          cases hok : ok with
          | false => rfl
          | true =>
              cases hany : st.licenses.any (fun l => l.license_id == k) with
              | false =>
                  subst hok
                  exact absurd ⟨hany, rfl⟩ hc
              | true => simp [hany]
        have hkr : k ∉ rest → (return_key
            { st with pool := fun p => if p = pt then rest else st.pool p } pt k).2.pool pt =
            k :: rest := by
          intro hk
          simp [return_key, hpt, hk]
        have hres : create_license st ok uid pt dur cb hl pn now =
            (none, (return_key
              { st with pool := fun p => if p = pt then rest else st.pool p } pt k).2) := by
          simp only [create_license, hstep]
          rw [if_neg (by simp [hfail])]
        constructor
        · intro lid hlid
          rw [hres] at hlid
          simp at hlid
        · intro _
          rw [hres]
          simp only [get_key_count, if_pos hpt]
          rw [hkr hknot, hpool]

/-- C10 witness: concrete instantiation on a two-key pool with a succeeding
insert. -/
theorem C10_witness :
    ("val1week" ∈ KEYS_CONFIG ∧ ((fixState ["K1", "K2"]).pool "val1week").Nodup) ∧
    ((∀ lid,
      (create_license (fixState ["K1", "K2"]) true 2 "val1week" 7 1 1 none 0).1 = some lid →
      get_key_count (create_license (fixState ["K1", "K2"]) true 2 "val1week" 7 1 1
        none 0).2 "val1week" + 1 = get_key_count (fixState ["K1", "K2"]) "val1week" ∧
      get_license_by_id (create_license (fixState ["K1", "K2"]) true 2 "val1week" 7 1 1
        none 0).2 lid ≠ none) ∧
     ((create_license (fixState ["K1", "K2"]) true 2 "val1week" 7 1 1 none 0).1 = none →
      get_key_count (create_license (fixState ["K1", "K2"]) true 2 "val1week" 7 1 1
        none 0).2 "val1week" = get_key_count (fixState ["K1", "K2"]) "val1week")) :=
  ⟨by decide, C10_create_license_atomic (fixState ["K1", "K2"]) true 2 "val1week" 7 1 1
    none 0 (by decide)⟩

/-- Helper: `find?` by user id commutes with a row map that does not change
user ids. -/
theorem find?_user_map (l : List UserRow) (uid : Int) (g : UserRow → UserRow)
    (hg : ∀ u, (g u).user_id = u.user_id) :
    (l.map g).find? (fun u => u.user_id == uid) =
      (l.find? (fun u => u.user_id == uid)).map g := by
  rw [List.find?_map]
  have hpg : ((fun u : UserRow => u.user_id == uid) ∘ g) =
      (fun u : UserRow => u.user_id == uid) := by
    funext u
    simp [Function.comp, hg u]
  rw [hpg]

/-- Helper: a successful `update_balance` updates the user's balance and the
matching cumulative total, appends exactly one transaction row bearing the
next id, and touches nothing else. -/
theorem update_balance_spec (st : State) (uid : Int) (amount : Rat) (ty : String)
    (ds : Option String) (now : Nat) (u : UserRow) (hu : get_user st uid = some u) :
    (update_balance st true uid amount ty ds now).1 = true ∧
    get_user (update_balance st true uid amount ty ds now).2 uid =
      some { u with
              balance := u.balance + amount
              total_earned := u.total_earned + (if 0 < amount then amount else 0)
              total_spent := u.total_spent + (if 0 < amount then 0 else |amount|) } ∧
    (update_balance st true uid amount ty ds now).2.transactions =
      st.transactions ++ [{ id := st.nextTxId, user_id := uid, amount := amount,
                            transaction_type := ty, description := ds, created_at := now }] ∧
    (update_balance st true uid amount ty ds now).2.nextTxId = st.nextTxId + 1 ∧
    (update_balance st true uid amount ty ds now).2.pool = st.pool ∧
    (update_balance st true uid amount ty ds now).2.licenses = st.licenses := by
  have hu' : st.users.find? (fun v => v.user_id == uid) = some u := hu
  have hpred : (u.user_id == uid) = true := by
    have h2 := List.find?_some hu'
    simpa using h2
  have hg1 : ∀ v : UserRow,
      ((fun v => if v.user_id == uid then { v with balance := v.balance + amount } else v)
        v).user_id = v.user_id := by
    intro v
    by_cases hv : (v.user_id == uid) = true <;> simp [hv]
  have hgE : ∀ v : UserRow,
      ((fun v => if v.user_id == uid then
        { v with total_earned := v.total_earned + amount } else v) v).user_id = v.user_id := by
    intro v
    by_cases hv : (v.user_id == uid) = true <;> simp [hv]
  have hgS : ∀ v : UserRow,
      ((fun v => if v.user_id == uid then
        { v with total_spent := v.total_spent + |amount| } else v) v).user_id = v.user_id := by
    intro v
    by_cases hv : (v.user_id == uid) = true <;> simp [hv]
  by_cases hamt : (0:Rat) < amount
  · refine ⟨rfl, ?_, by simp [update_balance], by simp [update_balance], rfl, rfl⟩
    have h1 : (update_balance st true uid amount ty ds now).2.users =
        (st.users.map
          (fun v => if v.user_id == uid then { v with balance := v.balance + amount } else v)).map
          (fun v => if v.user_id == uid then
            { v with total_earned := v.total_earned + amount } else v) := by
      simp [update_balance, hamt]
    show (update_balance st true uid amount ty ds now).2.users.find?
      (fun v => v.user_id == uid) = _
    rw [h1, find?_user_map _ _ _ hgE, find?_user_map _ _ _ hg1, hu']
    have hpeq : u.user_id = uid := by simpa using hpred
    simp [hpeq, hamt]
  · refine ⟨rfl, ?_, by simp [update_balance], by simp [update_balance], rfl, rfl⟩
    have h1 : (update_balance st true uid amount ty ds now).2.users =
        (st.users.map
          (fun v => if v.user_id == uid then { v with balance := v.balance + amount } else v)).map
          (fun v => if v.user_id == uid then
            { v with total_spent := v.total_spent + |amount| } else v) := by
      simp [update_balance, hamt]
    show (update_balance st true uid amount ty ds now).2.users.find?
      (fun v => v.user_id == uid) = _
    rw [h1, find?_user_map _ _ _ hgS, find?_user_map _ _ _ hg1, hu']
    have hpeq : u.user_id = uid := by simpa using hpred
    simp [hpeq, hamt]

/-- Helper: sorting `old ++ [a, b]` descending by `created_at` puts `b` then
`a` in front when every element of `old` is older than `a` and `a` is older
than `b`. -/
theorem orderDesc_append_two (old : List TxnRow) (a b : TxnRow)
    (ha : ∀ o ∈ old, o.created_at < a.created_at) (hab : a.created_at < b.created_at) :
    orderByCreatedAtDesc (old ++ [a, b]) = b :: a :: orderByCreatedAtDesc old := by
  induction old with
  | nil =>
      show insertTxDesc a (insertTxDesc b (orderByCreatedAtDesc [])) = [b, a]
      simp [orderByCreatedAtDesc, insertTxDesc, Nat.lt_asymm hab]
  | cons o old ih =>
      have hoa : o.created_at < a.created_at := ha o (List.mem_cons_self o old)
      have hob : o.created_at < b.created_at := Nat.lt_trans hoa hab
      have ih' := ih (fun x hx => ha x (List.mem_cons_of_mem o hx))
      show insertTxDesc o (orderByCreatedAtDesc (old ++ [a, b])) =
        b :: a :: insertTxDesc o (orderByCreatedAtDesc old)
      rw [ih']
      simp [insertTxDesc, Nat.lt_asymm hoa, Nat.lt_asymm hob]

/-- C3: `adjustBalance(u, +10)` then `adjustBalance(u, -3)` leaves the
balance at old + 7, total_earned up by exactly 10, total_spent up by exactly
3, and appends exactly two new transactions for `u`, which
`get_user_transactions` returns newest-first ahead of the older history;
moreover a failed `update_balance` changes nothing at all (the three updates
and the log append apply as one unit or not at all). -/
theorem C3_adjust_balance_pair (st : State) (uid : Int) (u : UserRow) (t1 t2 : Nat)
    (limit : Nat)
    (h : get_user st uid = some u ∧ (∀ tx ∈ st.transactions, tx.created_at < t1) ∧ t1 < t2) :
    (update_balance st true uid 10 "admin_add" none t1).1 = true ∧
    (update_balance (update_balance st true uid 10 "admin_add" none t1).2 true uid (-3)
      "admin_remove" none t2).1 = true ∧
    (∃ u', get_user (update_balance (update_balance st true uid 10 "admin_add" none t1).2 true
        uid (-3) "admin_remove" none t2).2 uid = some u' ∧
      u'.balance = u.balance + 7 ∧ u'.total_earned = u.total_earned + 10 ∧
      u'.total_spent = u.total_spent + 3) ∧
    ((update_balance (update_balance st true uid 10 "admin_add" none t1).2 true uid (-3)
        "admin_remove" none t2).2.transactions.filter (fun t => t.user_id == uid)) =
      (st.transactions.filter (fun t => t.user_id == uid)) ++
      [{ id := st.nextTxId, user_id := uid, amount := 10, transaction_type := "admin_add",
         description := none, created_at := t1 },
       { id := st.nextTxId + 1, user_id := uid, amount := -3,
         transaction_type := "admin_remove", description := none, created_at := t2 }] ∧
    get_user_transactions (update_balance (update_balance st true uid 10 "admin_add" none
        t1).2 true uid (-3) "admin_remove" none t2).2 uid limit =
      ({ id := st.nextTxId + 1, user_id := uid, amount := -3,
         transaction_type := "admin_remove", description := none, created_at := t2 } ::
       { id := st.nextTxId, user_id := uid, amount := 10, transaction_type := "admin_add",
         description := none, created_at := t1 } ::
       orderByCreatedAtDesc (st.transactions.filter (fun t => t.user_id == uid))).take limit ∧
    (∀ amt ty ds tt, update_balance st false uid amt ty ds tt = (false, st)) := by
  obtain ⟨hu, hts, h12⟩ := h
  obtain ⟨hb1, hget1, htx1, hid1, _, _⟩ := update_balance_spec st uid 10 "admin_add" none t1 u hu
  set st1 := (update_balance st true uid 10 "admin_add" none t1).2 with hst1
  obtain ⟨hb2, hget2, htx2, hid2, _, _⟩ :=
    update_balance_spec st1 uid (-3) "admin_remove" none t2 _ hget1
  set st2 := (update_balance st1 true uid (-3) "admin_remove" none t2).2 with hst2
  have htxs : st2.transactions =
      st.transactions ++
      [{ id := st.nextTxId, user_id := uid, amount := 10, transaction_type := "admin_add",
         description := none, created_at := t1 },
       { id := st.nextTxId + 1, user_id := uid, amount := -3,
         transaction_type := "admin_remove", description := none, created_at := t2 }] := by
    rw [htx2, htx1, hid1]
    norm_num
  have hfil : st2.transactions.filter (fun t => t.user_id == uid) =
      (st.transactions.filter (fun t => t.user_id == uid)) ++
      [{ id := st.nextTxId, user_id := uid, amount := 10, transaction_type := "admin_add",
         description := none, created_at := t1 },
       { id := st.nextTxId + 1, user_id := uid, amount := -3,
         transaction_type := "admin_remove", description := none, created_at := t2 }] := by
    rw [htxs, List.filter_append]
    simp
  refine ⟨hb1, hb2, ⟨_, hget2, ?_, ?_, ?_⟩, hfil, ?_, ?_⟩
  · show u.balance + 10 + -3 = u.balance + 7
    ring
  · show u.total_earned + (if (0:Rat) < 10 then (10:Rat) else 0) +
      (if (0:Rat) < -3 then (-3:Rat) else 0) = u.total_earned + 10
    norm_num
  · show u.total_spent + (if (0:Rat) < 10 then (0:Rat) else |(10:Rat)|) +
      (if (0:Rat) < -3 then (0:Rat) else |(-3:Rat)|) = u.total_spent + 3
    norm_num
  · show (orderByCreatedAtDesc (st2.transactions.filter (fun t => t.user_id == uid))).take
        limit = _
    rw [hfil, orderDesc_append_two]
    · intro o ho
      exact hts o (List.mem_filter.mp ho).1
    · exact h12
  · intro amt ty ds tt
    rfl

/-- C3 witness: concrete instantiation on the fixture reseller with an empty
transaction history, at timestamps 1 and 2. -/
theorem C3_witness :
    (get_user (fixState []) 1 = some fixUser ∧
     (∀ tx ∈ (fixState []).transactions, tx.created_at < 1) ∧ 1 < 2) ∧
    ((update_balance (fixState []) true 1 10 "admin_add" none 1).1 = true ∧
     (update_balance (update_balance (fixState []) true 1 10 "admin_add" none 1).2 true 1 (-3)
       "admin_remove" none 2).1 = true ∧
     (∃ u', get_user (update_balance (update_balance (fixState []) true 1 10 "admin_add" none
         1).2 true 1 (-3) "admin_remove" none 2).2 1 = some u' ∧
       u'.balance = fixUser.balance + 7 ∧ u'.total_earned = fixUser.total_earned + 10 ∧
       u'.total_spent = fixUser.total_spent + 3) ∧
     ((update_balance (update_balance (fixState []) true 1 10 "admin_add" none 1).2 true 1 (-3)
         "admin_remove" none 2).2.transactions.filter (fun t => t.user_id == 1)) =
       ((fixState []).transactions.filter (fun t => t.user_id == 1)) ++
       [{ id := (fixState []).nextTxId, user_id := 1, amount := 10,
          transaction_type := "admin_add", description := none, created_at := 1 },
        { id := (fixState []).nextTxId + 1, user_id := 1, amount := -3,
          transaction_type := "admin_remove", description := none, created_at := 2 }] ∧
     get_user_transactions (update_balance (update_balance (fixState []) true 1 10 "admin_add"
         none 1).2 true 1 (-3) "admin_remove" none 2).2 1 10 =
       ({ id := (fixState []).nextTxId + 1, user_id := 1, amount := -3,
          transaction_type := "admin_remove", description := none, created_at := 2 } ::
        { id := (fixState []).nextTxId, user_id := 1, amount := 10,
          transaction_type := "admin_add", description := none, created_at := 1 } ::
        orderByCreatedAtDesc ((fixState []).transactions.filter
          (fun t => t.user_id == 1))).take 10 ∧
     (∀ amt ty ds tt,
        update_balance (fixState []) false 1 amt ty ds tt = (false, fixState []))) :=
  ⟨by decide, C3_adjust_balance_pair (fixState []) 1 fixUser 1 2 10 (by decide)⟩

/-- Helper: `ensure_user_exists` on an already-known user only refreshes the
row's `last_activity` and leaves every other table untouched. -/
theorem ensure_user_exists_existing (st : State) (uid : Int) (un : String) (now : Nat)
    (u : UserRow) (hu : get_user st uid = some u) :
    get_user (ensure_user_exists st uid un now) uid = some { u with last_activity := now } ∧
    (ensure_user_exists st uid un now).pool = st.pool ∧
    (ensure_user_exists st uid un now).licenses = st.licenses ∧
    (ensure_user_exists st uid un now).transactions = st.transactions ∧
    (ensure_user_exists st uid un now).nextTxId = st.nextTxId := by
  have hu' : st.users.find? (fun v => v.user_id == uid) = some u := hu
  have hpred : (u.user_id == uid) = true := by
    have h2 := List.find?_some hu'
    simpa using h2
  have hany : st.users.any (fun v => v.user_id == uid) = true :=
    List.any_eq_true.mpr ⟨u, List.mem_of_find?_eq_some hu', by simpa using hpred⟩
  have hcu : create_user st uid un now = (true, st) := by
    simp [create_user, hany]
  have hga : ∀ v : UserRow,
      ((fun v => if v.user_id == uid then { v with last_activity := now } else v)
        v).user_id = v.user_id := by
    intro v
    by_cases hv : (v.user_id == uid) = true <;> simp [hv]
  have hpeq : u.user_id = uid := by simpa using hpred
  refine ⟨?_, ?_, ?_, ?_, ?_⟩
  · simp only [ensure_user_exists, hcu, update_user_activity, get_user]
    rw [find?_user_map _ _ _ hga, hu']
    simp [hpeq]
  · simp only [ensure_user_exists, hcu, update_user_activity]
  · simp only [ensure_user_exists, hcu, update_user_activity]
  · simp only [ensure_user_exists, hcu, update_user_activity]
  · simp only [ensure_user_exists, hcu, update_user_activity]

/-- C6: a purchase attempt by a reseller whose balance is below the reseller
price (base price times one minus the commission rate) aborts with
`insufficientBalance` before reserving a key: no license is created, the key
pool is unchanged, and the buyer's balance, totals and transactions are
unchanged. -/
theorem C6_insufficient_balance_aborts (st : State) (buyer : Int) (bn : String)
    (pt : String) (target : Int) (tn : String) (iok dok : Bool) (now : Nat)
    (u : UserRow) (p : Product)
    (h : get_user st buyer = some u ∧ u.is_reseller = true ∧
         (PRODUCTS.find? (fun q => q.1 == pt)).map Prod.snd = some p ∧
         0 < get_key_count st pt ∧
         u.balance < p.price * (1 - u.commission_rate)) :
    (purchase_flow st buyer bn pt target tn iok dok now).1 =
      PurchaseResult.insufficientBalance ∧
    (purchase_flow st buyer bn pt target tn iok dok now).2.licenses = st.licenses ∧
    (purchase_flow st buyer bn pt target tn iok dok now).2.pool = st.pool ∧
    (purchase_flow st buyer bn pt target tn iok dok now).2.transactions = st.transactions ∧
    (∃ u', get_user (purchase_flow st buyer bn pt target tn iok dok now).2 buyer = some u' ∧
      u'.balance = u.balance ∧ u'.total_spent = u.total_spent ∧
      u'.total_earned = u.total_earned) := by
  obtain ⟨hu, hres, hp, hstock, hbal⟩ := h
  obtain ⟨hget0, hpool0, hlic0, htx0, _⟩ := ensure_user_exists_existing st buyer bn now u hu
  have hcount0 : get_key_count (ensure_user_exists st buyer bn now) pt =
      get_key_count st pt := by
    simp [get_key_count, hpool0]
  have hstock' : ¬ (get_key_count st pt ≤ 0) := by omega
  have hflow : purchase_flow st buyer bn pt target tn iok dok now =
      (PurchaseResult.insufficientBalance, ensure_user_exists st buyer bn now) := by
    simp only [purchase_flow, hget0, hp, hcount0]
    simp [hres, hstock', hbal]
  rw [hflow]
  exact ⟨rfl, hlic0, hpool0, htx0,
    ⟨{ u with last_activity := now }, hget0, rfl, rfl, rfl⟩⟩

/-- C6 witness: the poor reseller (balance 50, commission 0) attempting
`val1week` (reseller price 100) on a stocked pool. -/
theorem C6_witness :
    (get_user fixPoorState 1 = some fixPoorUser ∧ fixPoorUser.is_reseller = true ∧
     (PRODUCTS.find? (fun q => q.1 == "val1week")).map Prod.snd =
       some ⟨"Valorant 1 Week License", 100, 7⟩ ∧
     0 < get_key_count fixPoorState "val1week" ∧
     fixPoorUser.balance < (100 : Rat) * (1 - fixPoorUser.commission_rate)) ∧
    ((purchase_flow fixPoorState 1 "r" "val1week" 2 "t" true true 5).1 =
       PurchaseResult.insufficientBalance ∧
     (purchase_flow fixPoorState 1 "r" "val1week" 2 "t" true true 5).2.licenses =
       fixPoorState.licenses ∧
     (purchase_flow fixPoorState 1 "r" "val1week" 2 "t" true true 5).2.pool =
       fixPoorState.pool ∧
     (purchase_flow fixPoorState 1 "r" "val1week" 2 "t" true true 5).2.transactions =
       fixPoorState.transactions ∧
     (∃ u', get_user (purchase_flow fixPoorState 1 "r" "val1week" 2 "t" true true 5).2 1 =
        some u' ∧
       u'.balance = fixPoorUser.balance ∧ u'.total_spent = fixPoorUser.total_spent ∧
       u'.total_earned = fixPoorUser.total_earned)) := by
  have hhyp : get_user fixPoorState 1 = some fixPoorUser ∧ fixPoorUser.is_reseller = true ∧
      (PRODUCTS.find? (fun q => q.1 == "val1week")).map Prod.snd =
        some ⟨"Valorant 1 Week License", 100, 7⟩ ∧
      0 < get_key_count fixPoorState "val1week" ∧
      fixPoorUser.balance < (100 : Rat) * (1 - fixPoorUser.commission_rate) := by
    refine ⟨by decide, by decide, by decide, by decide, ?_⟩
    show (50 : Rat) < 100 * (1 - 0)
    norm_num
  exact ⟨hhyp, C6_insufficient_balance_aborts fixPoorState 1 "r" "val1week" 2 "t" true true 5
    fixPoorUser ⟨"Valorant 1 Week License", 100, 7⟩ hhyp⟩

/-- C5 counterexample: `delete_license` itself changes the key pool — on the
fixture state (license `K1`, empty `val1week` pool) the pool goes from `[]`
to `["K1"]` inside the delete operation, with no separate `returnKey` call by
the caller. -/
theorem C5_counterexample :
    (delete_license fixLicState "K1" 5).1 = true ∧
    fixLicState.pool "val1week" = [] ∧
    (delete_license fixLicState "K1" 5).2.pool "val1week" = ["K1"] := by
  decide

/-- C5 (amended): `delete_license` itself returns the deleted license's key
(its id) to the head of the product's pool and removes the row; the
admin-delete flow (`confirm_delete`) performs no additional `returnKey`, so
after it the key appears exactly once at the head. -/
theorem C5_amended_delete_returns_key (st : State) (lid : String) (uid : Int)
    (L : LicenseRow) (admin : Int) (reason : String) (now : Nat)
    (h : st.licenses.find? (fun l => l.license_id == lid && l.user_id == uid) = some L ∧
         L.product_type ∈ KEYS_CONFIG ∧ lid ∉ st.pool L.product_type) :
    (delete_license st lid uid).1 = true ∧
    (delete_license st lid uid).2.pool L.product_type = lid :: st.pool L.product_type ∧
    (delete_license st lid uid).2.licenses.filter
      (fun l => l.license_id == lid && l.user_id == uid) = [] ∧
    (confirm_delete st admin lid uid reason now).2.pool L.product_type =
      lid :: st.pool L.product_type := by
  obtain ⟨hf, hpt, hnot⟩ := h
  have hdel : delete_license st lid uid =
      (true, (return_key
        { st with licenses :=
            st.licenses.filter (fun l => !(l.license_id == lid && l.user_id == uid)) }
        L.product_type lid).2) := by
    simp only [delete_license, hf]
  refine ⟨?_, ?_, ?_, ?_⟩
  · rw [hdel]
  · rw [hdel]
    simp [return_key, hpt, hnot]
  · rw [hdel]
    have hlics : (return_key
        { st with licenses :=
            st.licenses.filter (fun l => !(l.license_id == lid && l.user_id == uid)) }
        L.product_type lid).2.licenses =
        st.licenses.filter (fun l => !(l.license_id == lid && l.user_id == uid)) := by
      simp [return_key, hpt, hnot]
    rw [hlics, List.filter_filter]
    apply List.filter_eq_nil_iff.mpr
    intro a _
    by_cases hpa : (a.license_id == lid && a.user_id == uid) = true <;> simp [hpa]
  · simp only [confirm_delete, hdel, log_admin_action]
    simp [return_key, hpt, hnot]

/-- C5 witness (amended claim): concrete instantiation on the fixture license
state. -/
theorem C5_witness :
    (fixLicState.licenses.find? (fun l => l.license_id == "K1" && l.user_id == 5) =
       some { license_id := "K1", user_id := 5, product_type := "val1week",
              product_name := some "Valorant 1 Week License", hwid := none,
              hwid_limit := 1, created_at := 0, expires_at := 7,
              created_by := 1, is_active := true } ∧
     "val1week" ∈ KEYS_CONFIG ∧ "K1" ∉ fixLicState.pool "val1week") ∧
    ((delete_license fixLicState "K1" 5).1 = true ∧
     (delete_license fixLicState "K1" 5).2.pool "val1week" =
       "K1" :: fixLicState.pool "val1week" ∧
     (delete_license fixLicState "K1" 5).2.licenses.filter
       (fun l => l.license_id == "K1" && l.user_id == 5) = [] ∧
     (confirm_delete fixLicState 9 "K1" 5 "spec check" 3).2.pool "val1week" =
       "K1" :: fixLicState.pool "val1week") :=
  ⟨by decide, C5_amended_delete_returns_key fixLicState "K1" 5
    { license_id := "K1", user_id := 5, product_type := "val1week",
      product_name := some "Valorant 1 Week License", hwid := none,
      hwid_limit := 1, created_at := 0, expires_at := 7,
      created_by := 1, is_active := true } 9 "spec check" 3 (by decide)⟩

/-- C1 (divergence from the spec's full-rollback claim): on the fixture state
with one `val1week` key, a purchase whose balance debit fails ends in
`paymentFailed` with the key-pool count restored and the buyer's balance and
transactions untouched — but the created license is STILL retrievable by its
id: the code only returns the key and never deletes the license row. -/
theorem C1_debit_failure_leaves_license :
    (purchase_flow (fixState ["K1"]) 1 "r" "val1week" 2 "t" true false 5).1 =
      PurchaseResult.paymentFailed ∧
    get_key_count (purchase_flow (fixState ["K1"]) 1 "r" "val1week" 2 "t" true false 5).2
      "val1week" = get_key_count (fixState ["K1"]) "val1week" ∧
    get_license_by_id (purchase_flow (fixState ["K1"]) 1 "r" "val1week" 2 "t" true false 5).2
      "K1" ≠ none ∧
    (∃ u', get_user (purchase_flow (fixState ["K1"]) 1 "r" "val1week" 2 "t" true false 5).2 1 =
      some u' ∧ u'.balance = 500 ∧ u'.total_spent = 0) ∧
    (purchase_flow (fixState ["K1"]) 1 "r" "val1week" 2 "t" true false 5).2.transactions =
      [] := by
  refine ⟨?_, ?_, ?_, ?_, ?_⟩ <;>
    simp +decide [purchase_flow, ensure_user_exists, create_user, update_user_activity,
      get_user, get_key_count, KEYS_CONFIG, PRODUCTS, create_license, get_available_key,
      update_balance, return_key, log_admin_action, get_license_by_id, fixState]

end ResellBot
